import Mathlib

/-!
Multiboot v1 boot information: the methods `infoWrapper.marshal` and `infoWrapper.size`
of `pkg/multiboot/info.go`, as a shallow embedding.

* The Go types `uint32`, `uint16`, `byte`, `uintptr` and `int` are natural numbers here;
  every conversion to a narrower type is written as an explicit `% 2 ^ w`.
* A Go `string` and a `[]byte` are lists of byte values.
* The variable `ubinary.NativeEndian` is one of `binary.LittleEndian` and
  `binary.BigEndian`, fixed when the package is built; it is a parameter (`ByteOrder`).
* The method `marshal` has a pointer receiver and assigns to two fields of it, so the
  embedding returns the receiver as the call leaves it together with the two results.
-/

namespace Multiboot

/-! Package `encoding/binary`. -/

/-- The two values `ubinary.NativeEndian` can take. -/
inductive ByteOrder where
  | LittleEndian
  | BigEndian
  deriving DecidableEq

/-- The method `ByteOrder.PutUint16`: `b[0] = byte(v); b[1] = byte(v >> 8)` for little endian,
the two bytes swapped for big endian. -/
def ByteOrder.PutUint16 (order : ByteOrder) (v : Nat) : List Nat :=
  match order with
  | .LittleEndian => [v % 256, (v >>> 8) % 256]
  | .BigEndian => [(v >>> 8) % 256, v % 256]

/-- The method `ByteOrder.PutUint32`: `byte(v), byte(v >> 8), byte(v >> 16), byte(v >> 24)` for
little endian, the reverse order for big endian. -/
def ByteOrder.PutUint32 (order : ByteOrder) (v : Nat) : List Nat :=
  match order with
  | .LittleEndian => [v % 256, (v >>> 8) % 256, (v >>> 16) % 256, (v >>> 24) % 256]
  | .BigEndian => [(v >>> 24) % 256, (v >>> 16) % 256, (v >>> 8) % 256, v % 256]

/-- The method `ByteOrder.Uint16`: `uint16(b[0]) | uint16(b[1])<<8` for little endian,
`uint16(b[1]) | uint16(b[0])<<8` for big endian. -/
def ByteOrder.Uint16 (order : ByteOrder) (b : List Nat) : Nat :=
  match order with
  | .LittleEndian => b.getD 0 0 ||| (b.getD 1 0 <<< 8)
  | .BigEndian => b.getD 1 0 ||| (b.getD 0 0 <<< 8)

/-- The method `ByteOrder.Uint32`: `uint32(b[0]) | uint32(b[1])<<8 | uint32(b[2])<<16 | uint32(b[3])<<24`
for little endian, the bytes taken in the reverse order for big endian. -/
def ByteOrder.Uint32 (order : ByteOrder) (b : List Nat) : Nat :=
  match order with
  | .LittleEndian => b.getD 0 0 ||| (b.getD 1 0 <<< 8) ||| (b.getD 2 0 <<< 16) ||| (b.getD 3 0 <<< 24)
  | .BigEndian => b.getD 3 0 ||| (b.getD 2 0 <<< 8) ||| (b.getD 1 0 <<< 16) ||| (b.getD 0 0 <<< 24)

/-- The loop of the encoder over a fixed-size array: the elements in index order, each
written by `enc`. -/
def encodeArray (n : Nat) (a : Fin n → Nat) (enc : Nat → List Nat) : List Nat :=
  (List.finRange n).flatMap (fun i => enc (a i))

/-! The data model. -/

/-- The type `Flag`, declared `type Flag uint32`; the constants are `1 << iota`. -/
abbrev Flag := Nat

def flagInfoMemory : Flag := 1 <<< 0
def flagInfoBootDev : Flag := 1 <<< 1
def flagInfoCmdLine : Flag := 1 <<< 2
def flagInfoMods : Flag := 1 <<< 3
def flagInfoAoutSyms : Flag := 1 <<< 4
def flagInfoElfSHDR : Flag := 1 <<< 5
def flagInfoMemMap : Flag := 1 <<< 6
def flagInfoDriveInfo : Flag := 1 <<< 7
def flagInfoConfigTable : Flag := 1 <<< 8
def flagInfoBootLoaderName : Flag := 1 <<< 9
def flagInfoAPMTable : Flag := 1 <<< 10
def flagInfoVideoInfo : Flag := 1 <<< 11
def flagInfoFrameBuffer : Flag := 1 <<< 12

/-- The struct `Info`, the fields in declaration order. -/
structure Info where
  Flags : Flag
  MemLower : Nat
  MemUpper : Nat
  BootDevice : Nat
  CmdLine : Nat
  ModsCount : Nat
  ModsAddr : Nat
  Syms : Fin 4 → Nat
  MmapLength : Nat
  MmapAddr : Nat
  DriversLength : Nat
  DrivesrAddr : Nat
  ConfigTable : Nat
  BootLoaderName : Nat
  APMTable : Nat
  VBEControlInfo : Nat
  VBEModeInfo : Nat
  VBEMode : Nat
  VBEInterfaceSeg : Nat
  VBEInterfaceOff : Nat
  VBEInterfaceLen : Nat
  FramebufferAddr : Nat
  FramebufferPitch : Nat
  FramebufferWidth : Nat
  FramebufferHeight : Nat
  FramebufferBPP : Nat
  FramebufferType : Nat
  ColorInfo : Fin 6 → Nat

/-- The zero value `Info{}`. -/
def Info.zero : Info :=
  { Flags := 0, MemLower := 0, MemUpper := 0, BootDevice := 0, CmdLine := 0,
    ModsCount := 0, ModsAddr := 0, Syms := fun _ => 0, MmapLength := 0, MmapAddr := 0,
    DriversLength := 0, DrivesrAddr := 0, ConfigTable := 0, BootLoaderName := 0,
    APMTable := 0, VBEControlInfo := 0, VBEModeInfo := 0, VBEMode := 0,
    VBEInterfaceSeg := 0, VBEInterfaceOff := 0, VBEInterfaceLen := 0,
    FramebufferAddr := 0, FramebufferPitch := 0, FramebufferWidth := 0,
    FramebufferHeight := 0, FramebufferBPP := 0, FramebufferType := 0,
    ColorInfo := fun _ => 0 }

/-- The values an `Info` can hold in Go: every field is within the range of its type
(`uint32`, `uint16` or `byte`). -/
def Info.inRange (i : Info) : Prop :=
  i.Flags < 2 ^ 32 ∧ i.MemLower < 2 ^ 32 ∧ i.MemUpper < 2 ^ 32 ∧ i.BootDevice < 2 ^ 32 ∧
  i.CmdLine < 2 ^ 32 ∧ i.ModsCount < 2 ^ 32 ∧ i.ModsAddr < 2 ^ 32 ∧
  (∀ k, i.Syms k < 2 ^ 32) ∧
  i.MmapLength < 2 ^ 32 ∧ i.MmapAddr < 2 ^ 32 ∧
  i.DriversLength < 2 ^ 32 ∧ i.DrivesrAddr < 2 ^ 32 ∧ i.ConfigTable < 2 ^ 32 ∧
  i.BootLoaderName < 2 ^ 32 ∧ i.APMTable < 2 ^ 32 ∧
  i.VBEControlInfo < 2 ^ 32 ∧ i.VBEModeInfo < 2 ^ 32 ∧
  i.VBEMode < 2 ^ 16 ∧ i.VBEInterfaceSeg < 2 ^ 16 ∧ i.VBEInterfaceOff < 2 ^ 16 ∧
  i.VBEInterfaceLen < 2 ^ 16 ∧
  i.FramebufferAddr < 2 ^ 16 ∧ i.FramebufferPitch < 2 ^ 16 ∧
  i.FramebufferWidth < 2 ^ 32 ∧ i.FramebufferHeight < 2 ^ 32 ∧
  i.FramebufferBPP < 2 ^ 8 ∧ i.FramebufferType < 2 ^ 8 ∧
  (∀ k, i.ColorInfo k < 2 ^ 8)

/-- The value of `binary.Size(Info{})`: the sum of the sizes of the fields, in declaration order
(`encoding/binary` adds no padding). -/
def Info.binarySize : Nat :=
  4 + 4 + 4 + 4 + 4 + 4 + 4 + 4 * 4 + 4 + 4 + 4 + 4 + 4 + 4 + 4 + 4 + 4 +
  2 + 2 + 2 + 2 + 2 + 2 + 4 + 4 + 1 + 1 + 6 * 1

/-- The variable `sizeofInfo`, initialised to `uint32(binary.Size(Info{}))`. -/
def sizeofInfo : Nat := Info.binarySize % 2 ^ 32

/-- The bytes `binary.Write` produces for an `Info`: every field in declaration order,
32- and 16-bit fields through the byte order, a `byte` field as the one byte
`uint8(v)`, an array element by element. -/
def Info.encode (order : ByteOrder) (i : Info) : List Nat :=
  order.PutUint32 i.Flags ++
  order.PutUint32 i.MemLower ++
  order.PutUint32 i.MemUpper ++
  order.PutUint32 i.BootDevice ++
  order.PutUint32 i.CmdLine ++
  order.PutUint32 i.ModsCount ++
  order.PutUint32 i.ModsAddr ++
  encodeArray 4 i.Syms order.PutUint32 ++
  order.PutUint32 i.MmapLength ++
  order.PutUint32 i.MmapAddr ++
  order.PutUint32 i.DriversLength ++
  order.PutUint32 i.DrivesrAddr ++
  order.PutUint32 i.ConfigTable ++
  order.PutUint32 i.BootLoaderName ++
  order.PutUint32 i.APMTable ++
  order.PutUint32 i.VBEControlInfo ++
  order.PutUint32 i.VBEModeInfo ++
  order.PutUint16 i.VBEMode ++
  order.PutUint16 i.VBEInterfaceSeg ++
  order.PutUint16 i.VBEInterfaceOff ++
  order.PutUint16 i.VBEInterfaceLen ++
  order.PutUint16 i.FramebufferAddr ++
  order.PutUint16 i.FramebufferPitch ++
  order.PutUint32 i.FramebufferWidth ++
  order.PutUint32 i.FramebufferHeight ++
  [i.FramebufferBPP % 256] ++
  [i.FramebufferType % 256] ++
  encodeArray 6 i.ColorInfo (fun b => [b % 256])

/-- The struct `infoWrapper`: the embedded `Info` and the two strings. -/
structure infoWrapper where
  Info : Info
  CmdLine : List Nat
  BootLoaderName : List Nat

/-! Type `bytes.Buffer`. -/

/-- The error values of Go; `Option error` is `nil` when `none`. -/
inductive error where
  | mk (msg : String)
  deriving DecidableEq

/-- A `bytes.Buffer` that has only been written to: its contents. -/
structure Buffer where
  buf : List Nat

/-- The method `Buffer.Len`. -/
def Buffer.Len (b : Buffer) : Nat := b.buf.length

/-- The method `Buffer.Bytes`. -/
def Buffer.Bytes (b : Buffer) : List Nat := b.buf

/-- The method `Buffer.Write`: appends `p`; "The return value n is the length of p; err is always
nil." -/
def Buffer.Write (b : Buffer) (p : List Nat) : Buffer × Nat × Option error :=
  ({ buf := b.buf ++ p }, p.length, none)

/-- The method `Buffer.WriteString`: appends `s`; "err is always nil." -/
def Buffer.WriteString (b : Buffer) (s : List Nat) : Buffer × Nat × Option error :=
  ({ buf := b.buf ++ s }, s.length, none)

/-- The method `Buffer.WriteByte`: appends `c`; "The returned error is always nil." -/
def Buffer.WriteByte (b : Buffer) (c : Nat) : Buffer × Option error :=
  ({ buf := b.buf ++ [c] }, none)

/-- The call `binary.Write(&buf, order, info)` for an `Info`: the encoding is built in a scratch
slice and handed to the buffer in one `Write`, whose error is returned. -/
def binaryWrite (b : Buffer) (order : ByteOrder) (data : Info) : Buffer × Option error :=
  let r := b.Write (data.encode order)
  (r.1, r.2.2)

/-- The call `bytes.Repeat([]byte{c}, count)`. -/
def bytesRepeat (c : Nat) (count : Nat) : List Nat := List.replicate count c

/-- The Go operator `x &^ y` (bit clear) on non-negative integers. -/
def andNot (x y : Nat) : Nat := Nat.bitwise (fun a b => a && !b) x y

/-! The methods `marshal` and `size`. -/

/-- The loop `for _, s := range []string{...}` of `marshal`: each string is written and
then a zero byte; the first write that reports an error ends the loop with it. -/
def writeStrings (buf : Buffer) : List (List Nat) → Buffer × Option error
  | [] => (buf, none)
  | s :: rest =>
    match buf.WriteString s with
    | (buf1, _, some err) => (buf1, some err)
    | (buf1, _, none) =>
      match buf1.WriteByte 0 with
      | (buf2, some err) => (buf2, some err)
      | (buf2, none) => writeStrings buf2 rest

/-- What a call of `marshal` leaves behind: the receiver after the call, the returned
slice (`nil` is the empty list) and the returned error. -/
structure MarshalResult where
  iw : infoWrapper
  bytes : List Nat
  err : Option error

/-- The method `func (iw *infoWrapper) marshal(base uintptr) ([]byte, error)`. -/
def infoWrapper.marshal (order : ByteOrder) (iw : infoWrapper) (base : Nat) : MarshalResult :=
  let offset := (sizeofInfo + base % 2 ^ 32) % 2 ^ 32
  let iw1 : infoWrapper := { iw with Info := { iw.Info with CmdLine := offset } }
  let offset := (offset + (iw1.CmdLine.length % 2 ^ 32 + 1) % 2 ^ 32) % 2 ^ 32
  let iw2 : infoWrapper := { iw1 with Info := { iw1.Info with BootLoaderName := offset } }
  match binaryWrite { buf := [] } order iw2.Info with
  | (_, some err) => { iw := iw2, bytes := [], err := some err }
  | (buf, none) =>
    match writeStrings buf [iw2.CmdLine, iw2.BootLoaderName] with
    | (_, some err) => { iw := iw2, bytes := [], err := some err }
    | (buf, none) =>
      let size := andNot (buf.Len + 3) 3
      let r := buf.Write (bytesRepeat 0 (size - buf.Len))
      { iw := iw2, bytes := r.1.Bytes, err := r.2.2 }

/-- The method `func (iw infoWrapper) size() (uint, error)`: the receiver is a copy, so
the wrapper of the caller is not touched; `len(b)` is never negative, so `uint(len(b))` is it. -/
def infoWrapper.size (order : ByteOrder) (iw : infoWrapper) : Nat × Option error :=
  let r := iw.marshal order 0
  (r.bytes.length, r.err)

/-! Reading the buffer back. -/

/-- The `n` bytes of `b` that start at index `off`. -/
def slice (b : List Nat) (off n : Nat) : List Nat := (b.drop off).take n

/-- The 32-bit field at byte offset `off`, decoded with `order`. -/
def readUint32 (order : ByteOrder) (b : List Nat) (off : Nat) : Nat :=
  order.Uint32 (slice b off 4)

/-- The 16-bit field at byte offset `off`, decoded with `order`. -/
def readUint16 (order : ByteOrder) (b : List Nat) (off : Nat) : Nat :=
  order.Uint16 (slice b off 2)

/-- The byte at offset `off`. -/
def readByte (b : List Nat) (off : Nat) : Nat := b.getD off 0

/-- The header read back from the first 108 bytes of `b`: every field of `Info` at the
offset `binary.Write` puts it, decoded with `order`. -/
def Info.decode (order : ByteOrder) (b : List Nat) : Info :=
  { Flags := readUint32 order b 0
    MemLower := readUint32 order b 4
    MemUpper := readUint32 order b 8
    BootDevice := readUint32 order b 12
    CmdLine := readUint32 order b 16
    ModsCount := readUint32 order b 20
    ModsAddr := readUint32 order b 24
    Syms := fun k => readUint32 order b (28 + 4 * k.val)
    MmapLength := readUint32 order b 44
    MmapAddr := readUint32 order b 48
    DriversLength := readUint32 order b 52
    DrivesrAddr := readUint32 order b 56
    ConfigTable := readUint32 order b 60
    BootLoaderName := readUint32 order b 64
    APMTable := readUint32 order b 68
    VBEControlInfo := readUint32 order b 72
    VBEModeInfo := readUint32 order b 76
    VBEMode := readUint16 order b 80
    VBEInterfaceSeg := readUint16 order b 82
    VBEInterfaceOff := readUint16 order b 84
    VBEInterfaceLen := readUint16 order b 86
    FramebufferAddr := readUint16 order b 88
    FramebufferPitch := readUint16 order b 90
    FramebufferWidth := readUint32 order b 92
    FramebufferHeight := readUint32 order b 96
    FramebufferBPP := readByte b 100
    FramebufferType := readByte b 101
    ColorInfo := fun k => readByte b (102 + k.val) }

/-- Every field reduced into the range of its Go type; the identity on `Info.inRange`. -/
def Info.wrap (i : Info) : Info :=
  { Flags := i.Flags % 2 ^ 32
    MemLower := i.MemLower % 2 ^ 32
    MemUpper := i.MemUpper % 2 ^ 32
    BootDevice := i.BootDevice % 2 ^ 32
    CmdLine := i.CmdLine % 2 ^ 32
    ModsCount := i.ModsCount % 2 ^ 32
    ModsAddr := i.ModsAddr % 2 ^ 32
    Syms := fun k => i.Syms k % 2 ^ 32
    MmapLength := i.MmapLength % 2 ^ 32
    MmapAddr := i.MmapAddr % 2 ^ 32
    DriversLength := i.DriversLength % 2 ^ 32
    DrivesrAddr := i.DrivesrAddr % 2 ^ 32
    ConfigTable := i.ConfigTable % 2 ^ 32
    BootLoaderName := i.BootLoaderName % 2 ^ 32
    APMTable := i.APMTable % 2 ^ 32
    VBEControlInfo := i.VBEControlInfo % 2 ^ 32
    VBEModeInfo := i.VBEModeInfo % 2 ^ 32
    VBEMode := i.VBEMode % 2 ^ 16
    VBEInterfaceSeg := i.VBEInterfaceSeg % 2 ^ 16
    VBEInterfaceOff := i.VBEInterfaceOff % 2 ^ 16
    VBEInterfaceLen := i.VBEInterfaceLen % 2 ^ 16
    FramebufferAddr := i.FramebufferAddr % 2 ^ 16
    FramebufferPitch := i.FramebufferPitch % 2 ^ 16
    FramebufferWidth := i.FramebufferWidth % 2 ^ 32
    FramebufferHeight := i.FramebufferHeight % 2 ^ 32
    FramebufferBPP := i.FramebufferBPP % 256
    FramebufferType := i.FramebufferType % 256
    ColorInfo := fun k => i.ColorInfo k % 256 }

instance (i : Info) : Decidable i.inRange := by
  unfold Info.inRange
  infer_instance

/-! Properties named by the specification. -/

/-- The specification on the Flags word `flags`: the command-line bit and the
bootloader-name bit are set, and the bits of the fields that are never populated (boot
device, aout and ELF symbols, drive info, config table, APM table, video, framebuffer)
are clear. -/
def flagsDescribePopulated (flags : Nat) : Prop :=
  flags &&& flagInfoCmdLine ≠ 0 ∧ flags &&& flagInfoBootLoaderName ≠ 0 ∧
  flags &&& flagInfoBootDev = 0 ∧ flags &&& flagInfoAoutSyms = 0 ∧
  flags &&& flagInfoElfSHDR = 0 ∧ flags &&& flagInfoDriveInfo = 0 ∧
  flags &&& flagInfoConfigTable = 0 ∧ flags &&& flagInfoAPMTable = 0 ∧
  flags &&& flagInfoVideoInfo = 0 ∧ flags &&& flagInfoFrameBuffer = 0

instance (flags : Nat) : Decidable (flagsDescribePopulated flags) := by
  unfold flagsDescribePopulated
  infer_instance

/-- The specification on a decoded header: every reserved or unsupported field is zero. -/
def Info.reservedZero (i : Info) : Prop :=
  i.BootDevice = 0 ∧ (∀ k, i.Syms k = 0) ∧ i.MmapLength = 0 ∧ i.MmapAddr = 0 ∧
  i.DriversLength = 0 ∧ i.DrivesrAddr = 0 ∧ i.ConfigTable = 0 ∧ i.APMTable = 0 ∧
  i.VBEControlInfo = 0 ∧ i.VBEModeInfo = 0 ∧ i.VBEMode = 0 ∧
  i.VBEInterfaceSeg = 0 ∧ i.VBEInterfaceOff = 0 ∧ i.VBEInterfaceLen = 0 ∧
  i.FramebufferAddr = 0 ∧ i.FramebufferPitch = 0 ∧ i.FramebufferWidth = 0 ∧
  i.FramebufferHeight = 0 ∧ i.FramebufferBPP = 0 ∧ i.FramebufferType = 0 ∧
  (∀ k, i.ColorInfo k = 0)

instance (i : Info) : Decidable i.reservedZero := by
  unfold Info.reservedZero
  infer_instance

/-- The number `m` is the smallest multiple of 4 that is at least `n`. -/
def leastMultipleOf4 (m n : Nat) : Prop :=
  m % 4 = 0 ∧ n ≤ m ∧ ∀ j, j % 4 = 0 → n ≤ j → m ≤ j

/-! Concrete inputs. -/

/-- The bytes of a Go string literal made of ASCII characters. -/
def asciiBytes (s : String) : List Nat := s.toList.map Char.toNat

/-- The zero wrapper: a zero header and two empty strings. -/
def zeroWrapper : infoWrapper :=
  { Info := Info.zero, CmdLine := [], BootLoaderName := [] }

/-- A zero header with the command line `abc` and an empty bootloader name. -/
def abcWrapper : infoWrapper :=
  { Info := Info.zero, CmdLine := asciiBytes ("abc"), BootLoaderName := [] }

/-- A zero header with the command line `abc` and the bootloader name `u-boot`. -/
def abcBootWrapper : infoWrapper :=
  { Info := Info.zero, CmdLine := asciiBytes ("abc"), BootLoaderName := asciiBytes ("u-boot") }

/-- The wrapper of the concrete scenario of the specification, over a header `i`. -/
def scenarioWrapper (i : Info) : infoWrapper :=
  { Info := i, CmdLine := asciiBytes ("console=ttyS0"), BootLoaderName := asciiBytes ("u-boot") }

/-- The scenario wrapper whose header claims a boot device in its Flags word, next to
the two strings. -/
def bootDevFlagWrapper : infoWrapper :=
  scenarioWrapper { Info.zero with
    Flags := flagInfoCmdLine ||| flagInfoBootLoaderName ||| flagInfoBootDev }

/-- The scenario wrapper whose header carries values in reserved fields. -/
def reservedSetWrapper : infoWrapper :=
  scenarioWrapper { Info.zero with
    BootDevice := 0x80, MmapLength := 24, MmapAddr := 0x9000, FramebufferBPP := 32 }

/-! Reading a C string. -/

/-- The C string that starts at index `off` of `b`: the bytes from there up to, and not
including, the first zero byte. -/
def cString (b : List Nat) (off : Nat) : List Nat :=
  (b.drop off).takeWhile (fun x => x != 0)

/-! Layout tables: one row `(offset, width)` per field. -/

/-- The sizes `binary.Size` counts for the fields of `Info`, in declaration order:
`Flags`, `MemLower`, `MemUpper`, `BootDevice`, `CmdLine`, `ModsCount`, `ModsAddr`, `Syms`,
`MmapLength`, `MmapAddr`, `DriversLength`, `DrivesrAddr`, `ConfigTable`, `BootLoaderName`,
`APMTable`, `VBEControlInfo`, `VBEModeInfo`, `VBEMode`, `VBEInterfaceSeg`,
`VBEInterfaceOff`, `VBEInterfaceLen`, `FramebufferAddr`, `FramebufferPitch`,
`FramebufferWidth`, `FramebufferHeight`, `FramebufferBPP`, `FramebufferType`,
`ColorInfo`. -/
def Info.fieldSizes : List Nat :=
  [4, 4, 4, 4, 4, 4, 4, 4 * 4, 4, 4, 4, 4, 4, 4, 4, 4, 4,
   2, 2, 2, 2, 2, 2, 4, 4, 1, 1, 6 * 1]

/-- The rows `(offset, width)` of fields of the given sizes laid out one after the other
from offset `off`, without padding. -/
def layoutFrom (off : Nat) : List Nat → List (Nat × Nat)
  | [] => []
  | w :: rest => (off, w) :: layoutFrom (off + w) rest

/-- The layout of the header `binary.Write` produces for an `Info`. -/
def Info.layout : List (Nat × Nat) := layoutFrom 0 Info.fieldSizes

/-- The Multiboot v1 boot information format, one row per field: flags, mem_lower,
mem_upper, boot_device, cmdline, mods_count, mods_addr, syms, mmap_length, mmap_addr,
drives_length, drives_addr, config_table, boot_loader_name, apm_table, vbe_control_info,
vbe_mode_info, vbe_mode, vbe_interface_seg, vbe_interface_off, vbe_interface_len,
framebuffer_addr, framebuffer_pitch, framebuffer_width, framebuffer_height,
framebuffer_bpp, framebuffer_type, color_info; 116 bytes in all. -/
def multibootLayout : List (Nat × Nat) :=
  [(0, 4), (4, 4), (8, 4), (12, 4), (16, 4), (20, 4), (24, 4), (28, 16), (44, 4), (48, 4),
   (52, 4), (56, 4), (60, 4), (64, 4), (68, 4), (72, 4), (76, 4),
   (80, 2), (82, 2), (84, 2), (86, 2),
   (88, 8), (96, 4), (100, 4), (104, 4), (108, 1), (109, 1), (110, 6)]

/-- A header with an 800 by 600 framebuffer of 32 bits per pixel in the framebuffer
fields, everything else zero. -/
def framebufferInfo : Info :=
  { Info.zero with FramebufferWidth := 800, FramebufferHeight := 600, FramebufferBPP := 32 }

/-- A header with every field set to a different non-zero value of its type, and pointer
fields that `marshal` will overwrite. -/
def busyWrapper : infoWrapper :=
  { Info :=
      { Flags := flagInfoMemory ||| flagInfoCmdLine, MemLower := 640, MemUpper := 0x7fc00,
        BootDevice := 0x80, CmdLine := 0xdead, ModsCount := 2, ModsAddr := 0x9000,
        Syms := fun k => 10 + k.val, MmapLength := 24, MmapAddr := 0xa000,
        DriversLength := 3, DrivesrAddr := 0xb000, ConfigTable := 0xc000,
        BootLoaderName := 0xbeef, APMTable := 0xd000, VBEControlInfo := 0xe000,
        VBEModeInfo := 0xf000, VBEMode := 0x118, VBEInterfaceSeg := 1,
        VBEInterfaceOff := 2, VBEInterfaceLen := 3, FramebufferAddr := 4,
        FramebufferPitch := 5, FramebufferWidth := 800, FramebufferHeight := 600,
        FramebufferBPP := 32, FramebufferType := 1, ColorInfo := fun k => 20 + k.val }
    CmdLine := asciiBytes ("console=ttyS0")
    BootLoaderName := asciiBytes ("u-boot") }

/-- A wrapper whose command line has an embedded zero byte: `a`, `b`, 0, `c`. -/
def embeddedZeroWrapper : infoWrapper :=
  { Info := Info.zero, CmdLine := [97, 98, 0, 99], BootLoaderName := asciiBytes ("u-boot") }

/-! Arithmetic and list lemmas. -/

theorem andNot_three (x : Nat) : andNot x 3 = x / 4 * 4 := by
  apply Nat.eq_of_testBit_eq
  intro i
  unfold andNot
  rw [Nat.testBit_bitwise (by rfl)]
  have h3 : (3 : Nat) = 2 ^ 2 - 1 := by norm_num
  have h4 : (4 : Nat) = 2 ^ 2 := by norm_num
  rw [h3, Nat.testBit_two_pow_sub_one, h4, Nat.mul_comm, Nat.testBit_mul_pow_two,
    ← Nat.shiftRight_eq_div_pow, Nat.testBit_shiftRight]
  by_cases h : i < 2
  · simp [h]
  · have : 2 ≤ i := by omega
    simp [h, this]

theorem or_shift_eq (a b n : Nat) (h : a < 2 ^ n) : a ||| (b <<< n) = a + b * 2 ^ n := by
  rw [Nat.or_comm, Nat.shiftLeft_eq, Nat.mul_comm, ← Nat.mul_add_lt_is_or h]; omega

theorem Uint32_PutUint32 (order : ByteOrder) (v : Nat) :
    order.Uint32 (order.PutUint32 v) = v % 2 ^ 32 := by
  have h1 : v % 256 < 2 ^ 8 := by omega
  have h2 : v % 256 + (v / 2 ^ 8) % 256 * 2 ^ 8 < 2 ^ 16 := by omega
  have h3 : v % 256 + (v / 2 ^ 8) % 256 * 2 ^ 8 + (v / 2 ^ 16) % 256 * 2 ^ 16 < 2 ^ 24 := by omega
  cases order <;>
  simp only [ByteOrder.Uint32, ByteOrder.PutUint32, List.getD_cons_zero, List.getD_cons_succ,
    Nat.shiftRight_eq_div_pow] <;>
  rw [or_shift_eq _ _ _ h1, or_shift_eq _ _ _ h2, or_shift_eq _ _ _ h3] <;> omega

theorem Uint16_PutUint16 (order : ByteOrder) (v : Nat) :
    order.Uint16 (order.PutUint16 v) = v % 2 ^ 16 := by
  have h1 : v % 256 < 2 ^ 8 := by omega
  cases order <;>
  simp only [ByteOrder.Uint16, ByteOrder.PutUint16, List.getD_cons_zero, List.getD_cons_succ,
    Nat.shiftRight_eq_div_pow] <;>
  rw [or_shift_eq _ _ _ h1] <;> omega

theorem readUint32_of_slice (order : ByteOrder) (b : List Nat) (off v : Nat)
    (h : slice b off 4 = order.PutUint32 v) : readUint32 order b off = v % 2 ^ 32 := by
  rw [readUint32, h, Uint32_PutUint32]

theorem readUint16_of_slice (order : ByteOrder) (b : List Nat) (off v : Nat)
    (h : slice b off 2 = order.PutUint16 v) : readUint16 order b off = v % 2 ^ 16 := by
  rw [readUint16, h, Uint16_PutUint16]

theorem PutUint32_length (order : ByteOrder) (v : Nat) : (order.PutUint32 v).length = 4 := by
  cases order <;> rfl

theorem PutUint16_length (order : ByteOrder) (v : Nat) : (order.PutUint16 v).length = 2 := by
  cases order <;> rfl

theorem encodeArray4 (a : Fin 4 → Nat) (enc : Nat → List Nat) :
    encodeArray 4 a enc = enc (a 0) ++ enc (a 1) ++ enc (a 2) ++ enc (a 3) := by
  simp [encodeArray, List.finRange]
  rfl

theorem encodeArray6 (a : Fin 6 → Nat) (enc : Nat → List Nat) :
    encodeArray 6 a enc =
      enc (a 0) ++ enc (a 1) ++ enc (a 2) ++ enc (a 3) ++ enc (a 4) ++ enc (a 5) := by
  simp [encodeArray, List.finRange]
  rfl

theorem slice_after (pre x post : List Nat) (off : Nat) (hoff : pre.length = off) :
    slice (pre ++ (x ++ post)) off x.length = x := by
  subst hoff
  simp [slice]

theorem getElem?_after (pre post : List Nat) (x off : Nat) (hoff : pre.length = off) :
    (pre ++ x :: post)[off]? = some x := by
  subst hoff
  rw [List.getElem?_append_right (Nat.le_refl _), Nat.sub_self]
  simp

/-! The header encoding. -/

theorem Info.encode_length (order : ByteOrder) (i : Info) : (i.encode order).length = 108 := by
  simp [Info.encode, encodeArray4, encodeArray6, PutUint32_length, PutUint16_length]

theorem sizeofInfo_eq : sizeofInfo = 108 := by decide

theorem Info.wrap_of_inRange (i : Info) (h : i.inRange) : i.wrap = i := by
  obtain ⟨h1, h2, h3, h4, h5, h6, h7, h8, h9, h10, h11, h12, h13, h14, h15, h16, h17, h18,
    h19, h20, h21, h22, h23, h24, h25, h26, h27, h28⟩ := h
  cases i
  simp only [Info.wrap, Info.mk.injEq]
  refine ⟨?_, ?_, ?_, ?_, ?_, ?_, ?_, ?_, ?_, ?_, ?_, ?_, ?_, ?_, ?_, ?_, ?_, ?_, ?_, ?_, ?_,
    ?_, ?_, ?_, ?_, ?_, ?_, ?_⟩
  all_goals first
    | exact Nat.mod_eq_of_lt (by assumption)
    | (funext k; exact Nat.mod_eq_of_lt (by first | exact h8 k | exact h28 k))

theorem Info.decode_encode (order : ByteOrder) (i : Info) (rest : List Nat) :
    Info.decode order (i.encode order ++ rest) = i.wrap := by
  have h32 := readUint32_of_slice order
  have h16 := readUint16_of_slice order
  cases order <;>
  simp only [Info.encode, ByteOrder.PutUint32, ByteOrder.PutUint16, encodeArray4, encodeArray6,
    List.cons_append, List.nil_append, List.append_assoc] <;>
  simp only [Info.decode, Info.wrap, Info.mk.injEq] <;>
  refine ⟨?_, ?_, ?_, ?_, ?_, ?_, ?_, ?_, ?_, ?_, ?_, ?_, ?_, ?_, ?_, ?_, ?_, ?_, ?_, ?_, ?_,
    ?_, ?_, ?_, ?_, ?_, ?_, ?_⟩ <;>
  first
    | exact h32 _ _ _ rfl
    | exact h16 _ _ _ rfl
    | rfl
    | (funext k; fin_cases k <;> first | exact h32 _ _ _ rfl | rfl)

/-! The result of `marshal`. -/

theorem marshal_iw (order : ByteOrder) (iw : infoWrapper) (base : Nat) :
    (iw.marshal order base).iw =
      { iw with Info := { iw.Info with
          CmdLine := (108 + base) % 2 ^ 32,
          BootLoaderName := (108 + base + iw.CmdLine.length + 1) % 2 ^ 32 } } := by
  have e1 : (sizeofInfo + base % 2 ^ 32) % 2 ^ 32 = (108 + base) % 2 ^ 32 := by
    rw [sizeofInfo_eq]; omega
  have e2 : ((sizeofInfo + base % 2 ^ 32) % 2 ^ 32 +
      (iw.CmdLine.length % 2 ^ 32 + 1) % 2 ^ 32) % 2 ^ 32
      = (108 + base + iw.CmdLine.length + 1) % 2 ^ 32 := by
    rw [sizeofInfo_eq]; omega
  rw [← e1, ← e2]
  rfl

theorem marshal_bytes (order : ByteOrder) (iw : infoWrapper) (base : Nat) :
    (iw.marshal order base).bytes =
      (iw.marshal order base).iw.Info.encode order ++ iw.CmdLine ++ [0] ++
        iw.BootLoaderName ++ [0] ++
        List.replicate
          ((108 + iw.CmdLine.length + 1 + iw.BootLoaderName.length + 1 + 3) / 4 * 4
            - (108 + iw.CmdLine.length + 1 + iw.BootLoaderName.length + 1)) 0 := by
  simp only [infoWrapper.marshal, binaryWrite, Buffer.Write, writeStrings, Buffer.WriteString,
    Buffer.WriteByte, Buffer.Len, Buffer.Bytes, bytesRepeat, andNot_three,
    List.nil_append, List.length_append, Info.encode_length, List.length_cons, List.length_nil,
    List.append_assoc, Nat.zero_add, Nat.add_assoc]

theorem marshal_bytes_length (order : ByteOrder) (iw : infoWrapper) (base : Nat) :
    (iw.marshal order base).bytes.length =
      (108 + iw.CmdLine.length + 1 + iw.BootLoaderName.length + 1 + 3) / 4 * 4 := by
  rw [marshal_bytes]
  simp only [List.length_append, Info.encode_length, List.length_cons, List.length_nil,
    List.length_replicate]
  omega

theorem marshal_header (order : ByteOrder) (iw : infoWrapper) (base : Nat) :
    Info.decode order (iw.marshal order base).bytes = (iw.marshal order base).iw.Info.wrap := by
  rw [marshal_bytes]
  simp only [List.append_assoc]
  exact Info.decode_encode order _ _

theorem marshal_iw_inRange (order : ByteOrder) (iw : infoWrapper) (base : Nat)
    (h : iw.Info.inRange) : (iw.marshal order base).iw.Info.inRange := by
  rw [marshal_iw]
  obtain ⟨h1, h2, h3, h4, _, h6, h7, h8, h9, h10, h11, h12, h13, _, h15⟩ := h
  exact ⟨h1, h2, h3, h4, Nat.mod_lt _ (by decide), h6, h7, h8, h9, h10, h11, h12, h13,
    Nat.mod_lt _ (by decide), h15⟩

theorem marshal_decode (order : ByteOrder) (iw : infoWrapper) (base : Nat)
    (h : iw.Info.inRange) :
    Info.decode order (iw.marshal order base).bytes =
      { iw.Info with
        CmdLine := (108 + base) % 2 ^ 32,
        BootLoaderName := (108 + base + iw.CmdLine.length + 1) % 2 ^ 32 } := by
  rw [marshal_header, Info.wrap_of_inRange _ (marshal_iw_inRange order iw base h), marshal_iw]

theorem marshal_CmdLine_field (order : ByteOrder) (iw : infoWrapper) (base : Nat) :
    readUint32 order (iw.marshal order base).bytes 16 = (108 + base) % 2 ^ 32 := by
  have h := congrArg Info.CmdLine (marshal_header order iw base)
  rw [marshal_iw] at h
  simpa [Info.decode, Info.wrap] using h

theorem marshal_BootLoaderName_field (order : ByteOrder) (iw : infoWrapper) (base : Nat) :
    readUint32 order (iw.marshal order base).bytes 64 =
      (108 + base + iw.CmdLine.length + 1) % 2 ^ 32 := by
  have h := congrArg Info.BootLoaderName (marshal_header order iw base)
  rw [marshal_iw] at h
  simpa [Info.decode, Info.wrap] using h

theorem marshal_slice_CmdLine (order : ByteOrder) (iw : infoWrapper) (base : Nat) :
    slice (iw.marshal order base).bytes 108 iw.CmdLine.length = iw.CmdLine ∧
    (iw.marshal order base).bytes[108 + iw.CmdLine.length]? = some 0 := by
  have hlen := Info.encode_length order (iw.marshal order base).iw.Info
  rw [marshal_bytes]
  generalize Info.encode order (iw.marshal order base).iw.Info = hdr at hlen ⊢
  generalize List.replicate _ 0 = pad
  constructor
  · have e : hdr ++ iw.CmdLine ++ [0] ++ iw.BootLoaderName ++ [0] ++ pad
        = hdr ++ (iw.CmdLine ++ ([0] ++ iw.BootLoaderName ++ [0] ++ pad)) := by
      simp only [List.append_assoc]
    rw [e]
    exact slice_after hdr iw.CmdLine _ 108 hlen
  · have e : hdr ++ iw.CmdLine ++ [0] ++ iw.BootLoaderName ++ [0] ++ pad
        = (hdr ++ iw.CmdLine) ++ 0 :: (iw.BootLoaderName ++ [0] ++ pad) := by
      simp only [List.append_assoc, List.singleton_append, List.cons_append, List.nil_append]
    rw [e]
    exact getElem?_after (hdr ++ iw.CmdLine) _ 0 _ (by rw [List.length_append, hlen])

theorem marshal_slice_BootLoaderName (order : ByteOrder) (iw : infoWrapper) (base : Nat) :
    slice (iw.marshal order base).bytes (108 + iw.CmdLine.length + 1) iw.BootLoaderName.length
      = iw.BootLoaderName ∧
    (iw.marshal order base).bytes[108 + iw.CmdLine.length + 1 + iw.BootLoaderName.length]?
      = some 0 := by
  have hlen := Info.encode_length order (iw.marshal order base).iw.Info
  rw [marshal_bytes]
  generalize Info.encode order (iw.marshal order base).iw.Info = hdr at hlen ⊢
  generalize List.replicate _ 0 = pad
  constructor
  · have e : hdr ++ iw.CmdLine ++ [0] ++ iw.BootLoaderName ++ [0] ++ pad
        = (hdr ++ iw.CmdLine ++ [0]) ++ (iw.BootLoaderName ++ ([0] ++ pad)) := by
      simp only [List.append_assoc]
    rw [e]
    exact slice_after (hdr ++ iw.CmdLine ++ [0]) iw.BootLoaderName _ _
      (by simp only [List.length_append, hlen, List.length_cons, List.length_nil])
  · have e : hdr ++ iw.CmdLine ++ [0] ++ iw.BootLoaderName ++ [0] ++ pad
        = (hdr ++ iw.CmdLine ++ [0] ++ iw.BootLoaderName) ++ 0 :: pad := by
      simp only [List.append_assoc, List.singleton_append, List.cons_append, List.nil_append]
    rw [e]
    exact getElem?_after (hdr ++ iw.CmdLine ++ [0] ++ iw.BootLoaderName) _ 0 _
      (by simp only [List.length_append, hlen, List.length_cons, List.length_nil])

/-! The claims. -/

/-- Claim C1. For every wrapper, base and byte order, the buffer `marshal` returns is
the serialized header (the `Info` of the receiver with the two pointers assigned), which
is 108 bytes long for every header and byte order, then the bytes of `CmdLine`, one zero
byte, the bytes of `BootLoaderName`, one zero byte, and `k` zero bytes with `k ≤ 3`, in
this order and with nothing else. -/
theorem marshal_layout (order : ByteOrder) (iw : infoWrapper) (base : Nat) :
    (∀ (o : ByteOrder) (i : Info), (i.encode o).length = 108) ∧
    ∃ k, k ≤ 3 ∧
      (iw.marshal order base).bytes =
        Info.encode order { iw.Info with
            CmdLine := (108 + base) % 2 ^ 32,
            BootLoaderName := (108 + base + iw.CmdLine.length + 1) % 2 ^ 32 } ++
          iw.CmdLine ++ [0] ++ iw.BootLoaderName ++ [0] ++ List.replicate k 0 := by
  refine ⟨fun o i => Info.encode_length o i,
    (108 + iw.CmdLine.length + 1 + iw.BootLoaderName.length + 1 + 3) / 4 * 4
      - (108 + iw.CmdLine.length + 1 + iw.BootLoaderName.length + 1), by omega, ?_⟩
  rw [marshal_bytes, marshal_iw]

/-- Claim C2. For every wrapper (so in particular for every pair of strings without
embedded zero bytes), every base and byte order, the length of the buffer `marshal`
returns is a multiple of 4. -/
theorem marshal_length_mod_four (order : ByteOrder) (iw : infoWrapper) (base : Nat) :
    (iw.marshal order base).bytes.length % 4 = 0 := by
  rw [marshal_bytes_length]
  omega

/-- Claim C3, refuted as stated: on the zero wrapper with `base = 2 ^ 32 - 1` the
command-line pointer read back at offset 16 is 107, not `base + 108`. -/
theorem marshal_CmdLine_pointer_not_exact :
    readUint32 .LittleEndian (zeroWrapper.marshal .LittleEndian 4294967295).bytes 16 = 107 ∧
    readUint32 .LittleEndian (zeroWrapper.marshal .LittleEndian 4294967295).bytes 16
      ≠ 4294967295 + 108 := by
  constructor
  · rfl
  · decide

/-- Claim C3, amended. For every wrapper, base and byte order, the command-line pointer
read back from offset 16 of the buffer is `base + 108` reduced modulo `2 ^ 32`. -/
theorem marshal_CmdLine_pointer (order : ByteOrder) (iw : infoWrapper) (base : Nat) :
    readUint32 order (iw.marshal order base).bytes 16 = (base + 108) % 2 ^ 32 := by
  rw [marshal_CmdLine_field, Nat.add_comm]

/-- Claim C4, refuted as stated: with the command line `abc` and `base = 2 ^ 32 - 112`
the command-line pointer does not wrap, and the bootloader-name pointer read back at
offset 64 is 0, not `base + 108 + 3 + 1`. -/
theorem marshal_BootLoaderName_pointer_not_exact :
    readUint32 .LittleEndian (abcWrapper.marshal .LittleEndian 4294967184).bytes 64 = 0 ∧
    readUint32 .LittleEndian (abcWrapper.marshal .LittleEndian 4294967184).bytes 64
      ≠ 4294967184 + 108 + abcWrapper.CmdLine.length + 1 := by
  constructor
  · rfl
  · decide

/-- Claim C4, amended. For every wrapper, base and byte order, the bootloader-name
pointer read back from offset 64 of the buffer is `base + 108 + len(cmdline) + 1`
reduced modulo `2 ^ 32`. -/
theorem marshal_BootLoaderName_pointer (order : ByteOrder) (iw : infoWrapper) (base : Nat) :
    readUint32 order (iw.marshal order base).bytes 64 =
      (base + 108 + iw.CmdLine.length + 1) % 2 ^ 32 := by
  rw [marshal_BootLoaderName_field, Nat.add_comm 108 base]

/-- Claim C5. For every wrapper, base and byte order, the `len(cmdline)` bytes of the
buffer that start at index 108 are the bytes of `CmdLine`, and the byte at index
`108 + len(cmdline)` is zero. -/
theorem marshal_CmdLine_bytes (order : ByteOrder) (iw : infoWrapper) (base : Nat) :
    slice (iw.marshal order base).bytes 108 iw.CmdLine.length = iw.CmdLine ∧
    (iw.marshal order base).bytes[108 + iw.CmdLine.length]? = some 0 :=
  marshal_slice_CmdLine order iw base

/-- Claim C6, refuted as stated: with the command line `abc`, the bootloader name
`u-boot` and `base = 2 ^ 32 - 112` the name is at index `108 + 3 + 1 = 112` of the
buffer, while the bootloader-name pointer field reads back 0; the pointer field minus
base is not 112, as an integer or as a truncated difference, and the 6 bytes at that
difference are not the name. -/
theorem marshal_BootLoaderName_index_not_pointer_minus_base :
    slice (abcBootWrapper.marshal .LittleEndian 4294967184).bytes 112 6
      = abcBootWrapper.BootLoaderName ∧
    readUint32 .LittleEndian (abcBootWrapper.marshal .LittleEndian 4294967184).bytes 64 = 0 ∧
    ((readUint32 .LittleEndian (abcBootWrapper.marshal .LittleEndian 4294967184).bytes 64
        : Int) - 4294967184 ≠ 108 + abcBootWrapper.CmdLine.length + 1) ∧
    readUint32 .LittleEndian (abcBootWrapper.marshal .LittleEndian 4294967184).bytes 64
        - 4294967184 ≠ 108 + abcBootWrapper.CmdLine.length + 1 ∧
    slice (abcBootWrapper.marshal .LittleEndian 4294967184).bytes
        (readUint32 .LittleEndian (abcBootWrapper.marshal .LittleEndian 4294967184).bytes 64
          - 4294967184) 6
      ≠ abcBootWrapper.BootLoaderName := by
  refine ⟨by decide, by decide, by decide, by decide, by decide⟩

/-- Claim C6, amended. For every wrapper, base and byte order, the `len(bootloaderName)`
bytes of the buffer that start at index `108 + len(cmdline) + 1` are the bytes of
`BootLoaderName`, and the byte right after them is zero; the bootloader-name pointer
field is `base` plus that index reduced modulo `2 ^ 32`, so the index is the pointer
field minus `base` whenever `base` plus the index is below `2 ^ 32`. -/
theorem marshal_BootLoaderName_bytes (order : ByteOrder) (iw : infoWrapper) (base : Nat) :
    slice (iw.marshal order base).bytes (108 + iw.CmdLine.length + 1) iw.BootLoaderName.length
      = iw.BootLoaderName ∧
    (iw.marshal order base).bytes[108 + iw.CmdLine.length + 1 + iw.BootLoaderName.length]?
      = some 0 ∧
    readUint32 order (iw.marshal order base).bytes 64
      = (base + (108 + iw.CmdLine.length + 1)) % 2 ^ 32 ∧
    (base + (108 + iw.CmdLine.length + 1) < 2 ^ 32 →
      readUint32 order (iw.marshal order base).bytes 64 - base
        = 108 + iw.CmdLine.length + 1) := by
  have hp : readUint32 order (iw.marshal order base).bytes 64
      = (base + (108 + iw.CmdLine.length + 1)) % 2 ^ 32 := by
    rw [marshal_BootLoaderName_field]
    congr 1
    omega
  refine ⟨(marshal_slice_BootLoaderName order iw base).1,
    (marshal_slice_BootLoaderName order iw base).2, hp, ?_⟩
  intro hlt
  rw [hp, Nat.mod_eq_of_lt hlt]
  omega

/-- Claim C7. For every wrapper, base and byte order, `size` returns the length of the
buffer `marshal(0)` returns, and the buffer `marshal(base)` returns has that same
length. -/
theorem size_eq_marshal_length (order : ByteOrder) (iw : infoWrapper) (base : Nat) :
    (iw.size order).1 = (iw.marshal order 0).bytes.length ∧
    (iw.marshal order base).bytes.length = (iw.marshal order 0).bytes.length := by
  refine ⟨by simp only [infoWrapper.size], ?_⟩
  exact (marshal_bytes_length order iw base).trans (marshal_bytes_length order iw 0).symm

/-- Claim C8, refuted as stated: on the zero wrapper the Flags word of the buffer has
neither the command-line nor the bootloader-name bit, and on a wrapper whose Flags word
has the boot-device bit the buffer has it too. -/
theorem marshal_flags_not_describing :
    ¬ flagsDescribePopulated
        (readUint32 .LittleEndian (zeroWrapper.marshal .LittleEndian 0).bytes 0) ∧
    ¬ flagsDescribePopulated
        (readUint32 .LittleEndian (bootDevFlagWrapper.marshal .LittleEndian 0x100000).bytes 0) := by
  constructor <;> decide

/-- Claim C8, amended. For every wrapper whose Flags word is a `uint32`, every base and
byte order, the Flags word read back from offset 0 of the buffer is the Flags word of the
wrapper, so the buffer satisfies `flagsDescribePopulated` exactly when the wrapper passed
in does. -/
theorem marshal_flags_verbatim (order : ByteOrder) (iw : infoWrapper) (base : Nat)
    (h : iw.Info.Flags < 2 ^ 32) :
    readUint32 order (iw.marshal order base).bytes 0 = iw.Info.Flags ∧
    (flagsDescribePopulated (readUint32 order (iw.marshal order base).bytes 0) ↔
      flagsDescribePopulated iw.Info.Flags) := by
  have e : readUint32 order (iw.marshal order base).bytes 0 = iw.Info.Flags := by
    have h1 := congrArg Info.Flags (marshal_header order iw base)
    rw [marshal_iw] at h1
    simp only [Info.decode, Info.wrap] at h1
    rw [h1]
    exact Nat.mod_eq_of_lt h
  exact ⟨e, by rw [e]⟩

theorem marshal_flags_verbatim_witness :
    bootDevFlagWrapper.Info.Flags < 2 ^ 32 ∧
    readUint32 .BigEndian (bootDevFlagWrapper.marshal .BigEndian 0x100000).bytes 0
      = bootDevFlagWrapper.Info.Flags :=
  ⟨by decide, (marshal_flags_verbatim .BigEndian bootDevFlagWrapper 0x100000 (by decide)).1⟩

/-- Claim C9, refuted as stated: on a wrapper whose header holds non-zero values in
`BootDevice`, `MmapLength`, `MmapAddr` and `FramebufferBPP`, the header decoded from the
buffer does not have all reserved fields zero; `BootDevice` decodes as `0x80`. -/
theorem marshal_reserved_not_zero :
    (Info.decode .LittleEndian
      (reservedSetWrapper.marshal .LittleEndian 0x100000).bytes).BootDevice = 0x80 ∧
    ¬ (Info.decode .LittleEndian
      (reservedSetWrapper.marshal .LittleEndian 0x100000).bytes).reservedZero := by
  constructor
  · rfl
  · decide

/-- Claim C9, amended. For every wrapper whose header fields are within the ranges of
their types, every base and byte order, each reserved or unsupported field decodes from
the buffer to the value it has in the header of the wrapper; so they all decode as zero
exactly when they are all zero in the wrapper. -/
theorem marshal_reserved_verbatim (order : ByteOrder) (iw : infoWrapper) (base : Nat)
    (h : iw.Info.inRange) :
    (Info.decode order (iw.marshal order base).bytes).BootDevice = iw.Info.BootDevice ∧
    (Info.decode order (iw.marshal order base).bytes).Syms = iw.Info.Syms ∧
    (Info.decode order (iw.marshal order base).bytes).MmapLength = iw.Info.MmapLength ∧
    (Info.decode order (iw.marshal order base).bytes).MmapAddr = iw.Info.MmapAddr ∧
    (Info.decode order (iw.marshal order base).bytes).DriversLength = iw.Info.DriversLength ∧
    (Info.decode order (iw.marshal order base).bytes).DrivesrAddr = iw.Info.DrivesrAddr ∧
    (Info.decode order (iw.marshal order base).bytes).ConfigTable = iw.Info.ConfigTable ∧
    (Info.decode order (iw.marshal order base).bytes).APMTable = iw.Info.APMTable ∧
    (Info.decode order (iw.marshal order base).bytes).VBEControlInfo
      = iw.Info.VBEControlInfo ∧
    (Info.decode order (iw.marshal order base).bytes).VBEModeInfo = iw.Info.VBEModeInfo ∧
    (Info.decode order (iw.marshal order base).bytes).VBEMode = iw.Info.VBEMode ∧
    (Info.decode order (iw.marshal order base).bytes).VBEInterfaceSeg
      = iw.Info.VBEInterfaceSeg ∧
    (Info.decode order (iw.marshal order base).bytes).VBEInterfaceOff
      = iw.Info.VBEInterfaceOff ∧
    (Info.decode order (iw.marshal order base).bytes).VBEInterfaceLen
      = iw.Info.VBEInterfaceLen ∧
    (Info.decode order (iw.marshal order base).bytes).FramebufferAddr
      = iw.Info.FramebufferAddr ∧
    (Info.decode order (iw.marshal order base).bytes).FramebufferPitch
      = iw.Info.FramebufferPitch ∧
    (Info.decode order (iw.marshal order base).bytes).FramebufferWidth
      = iw.Info.FramebufferWidth ∧
    (Info.decode order (iw.marshal order base).bytes).FramebufferHeight
      = iw.Info.FramebufferHeight ∧
    (Info.decode order (iw.marshal order base).bytes).FramebufferBPP
      = iw.Info.FramebufferBPP ∧
    (Info.decode order (iw.marshal order base).bytes).FramebufferType
      = iw.Info.FramebufferType ∧
    (Info.decode order (iw.marshal order base).bytes).ColorInfo = iw.Info.ColorInfo ∧
    ((Info.decode order (iw.marshal order base).bytes).reservedZero ↔
      iw.Info.reservedZero) := by
  rw [marshal_decode order iw base h]
  exact ⟨rfl, rfl, rfl, rfl, rfl, rfl, rfl, rfl, rfl, rfl, rfl, rfl, rfl, rfl, rfl, rfl, rfl,
    rfl, rfl, rfl, rfl, Iff.rfl⟩

theorem marshal_reserved_verbatim_witness :
    reservedSetWrapper.Info.inRange ∧
    (Info.decode .BigEndian (reservedSetWrapper.marshal .BigEndian 0x100000).bytes).MmapAddr
      = reservedSetWrapper.Info.MmapAddr :=
  ⟨by decide,
    (marshal_reserved_verbatim .BigEndian reservedSetWrapper 0x100000 (by decide)).2.2.2.1⟩

/-- Claim C10, refuted as stated: in the scenario (zero header, little endian) the
bootloader-name field is `0x100000 + 108 + 14`, so the three statements of the claim do
not hold together; the command line has 13 bytes and its terminator makes 14, not 15. -/
theorem scenario_not_as_stated :
    ¬ (readUint32 .LittleEndian
          ((scenarioWrapper Info.zero).marshal .LittleEndian 0x100000).bytes 16
        = 0x100000 + 108 ∧
      readUint32 .LittleEndian
          ((scenarioWrapper Info.zero).marshal .LittleEndian 0x100000).bytes 64
        = 0x100000 + 108 + 15 ∧
      leastMultipleOf4
        ((scenarioWrapper Info.zero).marshal .LittleEndian 0x100000).bytes.length
        (108 + 15 + 7)) :=
  fun h => absurd h.2.1 (by decide)

/-- Claim C10, amended. In the scenario (`base = 0x100000`, command line
`console=ttyS0`, bootloader name `u-boot`, any header and byte order) the command-line
field is `0x100000 + 108`, the bootloader-name field is `0x100000 + 108 + 14`, and the
total length is 132, the smallest multiple of 4 that is at least `108 + 14 + 7`. -/
theorem scenario_amended (order : ByteOrder) (i : Info) :
    readUint32 order ((scenarioWrapper i).marshal order 0x100000).bytes 16
      = 0x100000 + 108 ∧
    readUint32 order ((scenarioWrapper i).marshal order 0x100000).bytes 64
      = 0x100000 + 108 + 14 ∧
    ((scenarioWrapper i).marshal order 0x100000).bytes.length = 132 ∧
    leastMultipleOf4 ((scenarioWrapper i).marshal order 0x100000).bytes.length
      (108 + 14 + 7) := by
  have hc : (scenarioWrapper i).CmdLine.length = 13 := rfl
  have hb : (scenarioWrapper i).BootLoaderName.length = 6 := rfl
  have hl : ((scenarioWrapper i).marshal order 0x100000).bytes.length = 132 := by
    rw [marshal_bytes_length, hc, hb]
  refine ⟨?_, ?_, hl, ?_⟩
  · rw [marshal_CmdLine_field]
    decide
  · rw [marshal_BootLoaderName_field, hc]
    decide
  · rw [hl]
    exact ⟨by decide, by decide, fun j h1 h2 => by omega⟩

/-! Further lemmas on `marshal`. -/

theorem marshal_err (order : ByteOrder) (iw : infoWrapper) (base : Nat) :
    (iw.marshal order base).err = none := by
  simp only [infoWrapper.marshal, binaryWrite, Buffer.Write, writeStrings, Buffer.WriteString,
    Buffer.WriteByte]

theorem marshal_iw_idem (order : ByteOrder) (iw : infoWrapper) (base : Nat) :
    ((iw.marshal order base).iw.marshal order base).iw = (iw.marshal order base).iw := by
  simp only [marshal_iw]

theorem marshal_bytes_idem (order : ByteOrder) (iw : infoWrapper) (base : Nat) :
    ((iw.marshal order base).iw.marshal order base).bytes = (iw.marshal order base).bytes := by
  rw [marshal_bytes order (iw.marshal order base).iw base, marshal_bytes order iw base,
    marshal_iw_idem]
  simp only [marshal_iw]

theorem takeWhile_append_zero (l rest : List Nat) :
    (l ++ 0 :: rest).takeWhile (fun x => x != 0) = l.takeWhile (fun x => x != 0) := by
  induction l with
  | nil => simp
  | cons a t ih =>
    by_cases h : a = 0
    · simp [h]
    · simp [List.takeWhile_cons, h, ih]

theorem takeWhile_eq_self_iff (l : List Nat) :
    l.takeWhile (fun x => x != 0) = l ↔ 0 ∉ l := by
  induction l with
  | nil => simp
  | cons a t ih =>
    by_cases h : a = 0
    · simp [h]
    · have h2 : ¬ (0 = a) := fun e => h e.symm
      simp [List.takeWhile_cons, h, h2, ih]

theorem getElem?_takeWhile_length (l rest : List Nat) :
    (l ++ 0 :: rest)[(l.takeWhile (fun x => x != 0)).length]? = some 0 := by
  induction l with
  | nil => simp
  | cons a t ih =>
    by_cases h : a = 0
    · simp [h]
    · simp [List.takeWhile_cons, h, ih]

theorem writeStrings_err (b : Buffer) (l : List (List Nat)) :
    (writeStrings b l).2 = none := by
  induction l generalizing b with
  | nil => rfl
  | cons s rest ih =>
    simp only [writeStrings, Buffer.WriteString, Buffer.WriteByte]
    exact ih _

theorem cString_embeddedZero :
    cString (embeddedZeroWrapper.marshal .LittleEndian 0).bytes 108 = [97, 98] := by
  decide

/-! The claims on repeated calls, the receiver and errors. -/

/-- Claim C11. For every wrapper, base and byte order, a second call of `marshal` with
the same base, made on the wrapper as the first call left it, returns the same bytes as
the first call. -/
theorem marshal_twice_same_bytes (order : ByteOrder) (iw : infoWrapper) (base : Nat) :
    ((iw.marshal order base).iw.marshal order base).bytes = (iw.marshal order base).bytes :=
  marshal_bytes_idem order iw base

/-- Claim C12, refuted as stated: on the zero wrapper with base 0 the call changes
`Info.CmdLine` of the receiver from 0 to 108 and `Info.BootLoaderName` from 0 to 109. -/
theorem marshal_changes_receiver :
    zeroWrapper.Info.CmdLine = 0 ∧
    (zeroWrapper.marshal .LittleEndian 0).iw.Info.CmdLine = 108 ∧
    zeroWrapper.Info.BootLoaderName = 0 ∧
    (zeroWrapper.marshal .LittleEndian 0).iw.Info.BootLoaderName = 109 ∧
    (zeroWrapper.marshal .LittleEndian 0).iw.Info.CmdLine ≠ zeroWrapper.Info.CmdLine := by
  refine ⟨rfl, rfl, rfl, rfl, ?_⟩
  decide

/-- Claim C12, amended. For every wrapper, base and byte order, both strings and every
header field other than `Info.CmdLine` and `Info.BootLoaderName` have the same value
after `marshal` returns as before the call; the receiver as a whole is unchanged exactly
when those two fields already held the pointers `marshal` assigns. -/
theorem marshal_receiver_other_fields (order : ByteOrder) (iw : infoWrapper) (base : Nat) :
    (iw.marshal order base).iw.CmdLine = iw.CmdLine ∧
    (iw.marshal order base).iw.BootLoaderName = iw.BootLoaderName ∧
    (iw.marshal order base).iw.Info.Flags = iw.Info.Flags ∧
    (iw.marshal order base).iw.Info.MemLower = iw.Info.MemLower ∧
    (iw.marshal order base).iw.Info.MemUpper = iw.Info.MemUpper ∧
    (iw.marshal order base).iw.Info.BootDevice = iw.Info.BootDevice ∧
    (iw.marshal order base).iw.Info.ModsCount = iw.Info.ModsCount ∧
    (iw.marshal order base).iw.Info.ModsAddr = iw.Info.ModsAddr ∧
    (iw.marshal order base).iw.Info.Syms = iw.Info.Syms ∧
    (iw.marshal order base).iw.Info.MmapLength = iw.Info.MmapLength ∧
    (iw.marshal order base).iw.Info.MmapAddr = iw.Info.MmapAddr ∧
    (iw.marshal order base).iw.Info.DriversLength = iw.Info.DriversLength ∧
    (iw.marshal order base).iw.Info.DrivesrAddr = iw.Info.DrivesrAddr ∧
    (iw.marshal order base).iw.Info.ConfigTable = iw.Info.ConfigTable ∧
    (iw.marshal order base).iw.Info.APMTable = iw.Info.APMTable ∧
    (iw.marshal order base).iw.Info.VBEControlInfo = iw.Info.VBEControlInfo ∧
    (iw.marshal order base).iw.Info.VBEModeInfo = iw.Info.VBEModeInfo ∧
    (iw.marshal order base).iw.Info.VBEMode = iw.Info.VBEMode ∧
    (iw.marshal order base).iw.Info.VBEInterfaceSeg = iw.Info.VBEInterfaceSeg ∧
    (iw.marshal order base).iw.Info.VBEInterfaceOff = iw.Info.VBEInterfaceOff ∧
    (iw.marshal order base).iw.Info.VBEInterfaceLen = iw.Info.VBEInterfaceLen ∧
    (iw.marshal order base).iw.Info.FramebufferAddr = iw.Info.FramebufferAddr ∧
    (iw.marshal order base).iw.Info.FramebufferPitch = iw.Info.FramebufferPitch ∧
    (iw.marshal order base).iw.Info.FramebufferWidth = iw.Info.FramebufferWidth ∧
    (iw.marshal order base).iw.Info.FramebufferHeight = iw.Info.FramebufferHeight ∧
    (iw.marshal order base).iw.Info.FramebufferBPP = iw.Info.FramebufferBPP ∧
    (iw.marshal order base).iw.Info.FramebufferType = iw.Info.FramebufferType ∧
    (iw.marshal order base).iw.Info.ColorInfo = iw.Info.ColorInfo ∧
    ((iw.marshal order base).iw = iw ↔
      iw.Info.CmdLine = (108 + base) % 2 ^ 32 ∧
      iw.Info.BootLoaderName = (108 + base + iw.CmdLine.length + 1) % 2 ^ 32) := by
  rw [marshal_iw]
  refine ⟨rfl, rfl, rfl, rfl, rfl, rfl, rfl, rfl, rfl, rfl, rfl, rfl, rfl, rfl, rfl, rfl, rfl,
    rfl, rfl, rfl, rfl, rfl, rfl, rfl, rfl, rfl, rfl, rfl, ?_⟩
  constructor
  · intro h
    have h1 := congrArg (fun w => w.Info.CmdLine) h
    have h2 := congrArg (fun w => w.Info.BootLoaderName) h
    exact ⟨h1.symm, h2.symm⟩
  · rintro ⟨h1, h2⟩
    rw [← h1, ← h2]

/-- Claim C13. For every wrapper (any header, any two strings, with or without embedded
zero bytes), base and byte order, `marshal` returns a `nil` error together with a
buffer, which holds at least the 108 header bytes and the two terminators, and `size`
returns a `nil` error. -/
theorem marshal_and_size_never_fail (order : ByteOrder) (iw : infoWrapper) (base : Nat) :
    (iw.marshal order base).err = none ∧
    110 ≤ (iw.marshal order base).bytes.length ∧
    (iw.size order).2 = none := by
  refine ⟨marshal_err order iw base, ?_, ?_⟩
  · rw [marshal_bytes_length]
    omega
  · simp only [infoWrapper.size]
    exact marshal_err order iw 0

/-- Claim C14. No call of `marshal` returns a non-nil error together with a buffer.
Every write of `marshal` goes to a `bytes.Buffer` and reports a `nil` error: the header
write, every string write and terminator write of the loop, and the final padding write.
So for every wrapper, base and byte order the error `marshal` returns is `nil`, and if it
were not `nil` the buffer returned would be `nil`. -/
theorem marshal_no_buffer_with_error (order : ByteOrder) (iw : infoWrapper) (base : Nat) :
    (∀ (b : Buffer) (i : Info), (binaryWrite b order i).2 = none) ∧
    (∀ (b : Buffer) (l : List (List Nat)), (writeStrings b l).2 = none) ∧
    (∀ (b : Buffer) (p : List Nat), (b.Write p).2.2 = none) ∧
    (iw.marshal order base).err = none ∧
    ((iw.marshal order base).err ≠ none → (iw.marshal order base).bytes = []) := by
  refine ⟨fun _ _ => rfl, writeStrings_err, fun _ _ => rfl, marshal_err order iw base, ?_⟩
  intro h
  exact absurd (marshal_err order iw base) h

/-! The claims on the layout, the padding, C strings, the pointers and the frame. -/

theorem Info.fieldSizes_sum : Info.fieldSizes.sum = Info.binarySize := by decide

theorem drop_after (pre post : List Nat) (off : Nat) (hoff : pre.length = off) :
    (pre ++ post).drop off = post := by
  subst hoff
  simp

theorem marshal_drop_header (order : ByteOrder) (iw : infoWrapper) (base : Nat) :
    ∃ pad, (iw.marshal order base).bytes.drop 108 =
      iw.CmdLine ++ 0 :: (iw.BootLoaderName ++ 0 :: pad) := by
  have hlen := Info.encode_length order (iw.marshal order base).iw.Info
  rw [marshal_bytes]
  generalize Info.encode order (iw.marshal order base).iw.Info = hdr at hlen ⊢
  generalize List.replicate _ 0 = pad
  refine ⟨pad, ?_⟩
  have e : hdr ++ iw.CmdLine ++ [0] ++ iw.BootLoaderName ++ [0] ++ pad
      = hdr ++ (iw.CmdLine ++ 0 :: (iw.BootLoaderName ++ 0 :: pad)) := by
    simp only [List.append_assoc, List.singleton_append, List.cons_append, List.nil_append]
  rw [e]
  exact drop_after hdr _ 108 hlen

theorem marshal_drop_cmdline (order : ByteOrder) (iw : infoWrapper) (base : Nat) :
    ∃ pad, (iw.marshal order base).bytes.drop (108 + iw.CmdLine.length + 1) =
      iw.BootLoaderName ++ 0 :: pad := by
  have hlen := Info.encode_length order (iw.marshal order base).iw.Info
  rw [marshal_bytes]
  generalize Info.encode order (iw.marshal order base).iw.Info = hdr at hlen ⊢
  generalize List.replicate _ 0 = pad
  refine ⟨pad, ?_⟩
  have e : hdr ++ iw.CmdLine ++ [0] ++ iw.BootLoaderName ++ [0] ++ pad
      = (hdr ++ iw.CmdLine ++ [0]) ++ (iw.BootLoaderName ++ 0 :: pad) := by
    simp only [List.append_assoc, List.singleton_append, List.cons_append, List.nil_append]
  rw [e]
  exact drop_after (hdr ++ iw.CmdLine ++ [0]) _ _
    (by simp only [List.length_append, hlen, List.length_cons, List.length_nil])

/-- Claim C15, evaluated where the code departs from it: the layout of the serialized
header agrees with the Multiboot v1 rows through `vbe_interface_len` (offset 86) and
differs in every row after it: `FramebufferAddr` and `FramebufferPitch` are 2 bytes each
at 88 and 90, not 8 bytes at 88 and 4 at 96, so width, height, bpp, type and colour info
sit at 92, 96, 100, 101 and 102, and the header is 108 bytes, not 116. On a header with
an 800 pixel wide framebuffer the width is read back at offset 92, and the four bytes at
offset 100, where Multiboot has `framebuffer_width`, hold 32. -/
theorem Info_layout_differs_from_multiboot :
    Info.layout.take 21 = multibootLayout.take 21 ∧
    Info.layout.drop 21 =
      [(88, 2), (90, 2), (92, 4), (96, 4), (100, 1), (101, 1), (102, 6)] ∧
    multibootLayout.drop 21 =
      [(88, 8), (96, 4), (100, 4), (104, 4), (108, 1), (109, 1), (110, 6)] ∧
    Info.layout ≠ multibootLayout ∧
    (framebufferInfo.encode .LittleEndian).length = 108 ∧
    readUint32 .LittleEndian (framebufferInfo.encode .LittleEndian) 92 = 800 ∧
    readUint32 .LittleEndian (framebufferInfo.encode .LittleEndian) 100 = 32 := by
  refine ⟨by decide, by decide, by decide, by decide, rfl, rfl, rfl⟩

/-- Claim C16. For every wrapper, base and byte order, with `L` the length before
padding, the number of bytes `marshal` appends, `((L + 3) &^ 3) - L`, is
`(4 - L mod 4) mod 4`; the buffer is the `L` bytes written before followed by that many
zero bytes; and the total length is the smallest multiple of 4 that is at least `L`. -/
theorem marshal_padding (order : ByteOrder) (iw : infoWrapper) (base : Nat) :
    andNot (108 + iw.CmdLine.length + 1 + iw.BootLoaderName.length + 1 + 3) 3
        - (108 + iw.CmdLine.length + 1 + iw.BootLoaderName.length + 1)
      = (4 - (108 + iw.CmdLine.length + 1 + iw.BootLoaderName.length + 1) % 4) % 4 ∧
    ((iw.marshal order base).iw.Info.encode order ++ iw.CmdLine ++ [0] ++
        iw.BootLoaderName ++ [0]).length
      = 108 + iw.CmdLine.length + 1 + iw.BootLoaderName.length + 1 ∧
    (iw.marshal order base).bytes =
      ((iw.marshal order base).iw.Info.encode order ++ iw.CmdLine ++ [0] ++
        iw.BootLoaderName ++ [0]) ++
      List.replicate
        ((4 - (108 + iw.CmdLine.length + 1 + iw.BootLoaderName.length + 1) % 4) % 4) 0 ∧
    leastMultipleOf4 (iw.marshal order base).bytes.length
      (108 + iw.CmdLine.length + 1 + iw.BootLoaderName.length + 1) := by
  have e : (108 + iw.CmdLine.length + 1 + iw.BootLoaderName.length + 1 + 3) / 4 * 4
        - (108 + iw.CmdLine.length + 1 + iw.BootLoaderName.length + 1)
      = (4 - (108 + iw.CmdLine.length + 1 + iw.BootLoaderName.length + 1) % 4) % 4 := by
    omega
  refine ⟨?_, ?_, ?_, ?_⟩
  · rw [andNot_three]
    exact e
  · simp only [List.length_append, Info.encode_length, List.length_cons, List.length_nil]
  · conv_lhs => rw [marshal_bytes]
    rw [e]
  · rw [marshal_bytes_length]
    exact ⟨by omega, by omega, fun j h1 h2 => by omega⟩

/-- Claim C17. For every wrapper, base and byte order, the C string read from index 108
of the buffer is the part of `CmdLine` before its first zero byte, and the C string read
from index `108 + len(cmdline) + 1` is the part of `BootLoaderName` before its first
zero byte; that part is the whole string exactly when the string has no zero byte; and
in both cases the byte right after the C string is inside the buffer and is zero. -/
theorem marshal_cStrings (order : ByteOrder) (iw : infoWrapper) (base : Nat) :
    cString (iw.marshal order base).bytes 108
      = iw.CmdLine.takeWhile (fun x => x != 0) ∧
    cString (iw.marshal order base).bytes (108 + iw.CmdLine.length + 1)
      = iw.BootLoaderName.takeWhile (fun x => x != 0) ∧
    (iw.CmdLine.takeWhile (fun x => x != 0) = iw.CmdLine ↔ 0 ∉ iw.CmdLine) ∧
    (iw.BootLoaderName.takeWhile (fun x => x != 0) = iw.BootLoaderName ↔
      0 ∉ iw.BootLoaderName) ∧
    (iw.marshal order base).bytes[108 + (cString (iw.marshal order base).bytes 108).length]?
      = some 0 ∧
    (iw.marshal order base).bytes[108 + iw.CmdLine.length + 1 +
        (cString (iw.marshal order base).bytes (108 + iw.CmdLine.length + 1)).length]?
      = some 0 := by
  obtain ⟨pad1, h1⟩ := marshal_drop_header order iw base
  obtain ⟨pad2, h2⟩ := marshal_drop_cmdline order iw base
  have c1 : cString (iw.marshal order base).bytes 108
      = iw.CmdLine.takeWhile (fun x => x != 0) := by
    rw [cString, h1, takeWhile_append_zero]
  have c2 : cString (iw.marshal order base).bytes (108 + iw.CmdLine.length + 1)
      = iw.BootLoaderName.takeWhile (fun x => x != 0) := by
    rw [cString, h2, takeWhile_append_zero]
  refine ⟨c1, c2, takeWhile_eq_self_iff _, takeWhile_eq_self_iff _, ?_, ?_⟩
  · rw [c1, ← List.getElem?_drop, h1]
    exact getElem?_takeWhile_length _ _
  · rw [c2, ← List.getElem?_drop, h2]
    exact getElem?_takeWhile_length _ _

/-- Claim C18. For every wrapper, base and byte order, the pointer `marshal` stores in
`Info.CmdLine` is `(108 + base) mod 2 ^ 32` and the pointer it stores in
`Info.BootLoaderName` is `(108 + base + len(cmdline) + 1) mod 2 ^ 32`, in the receiver
and in the bytes at offsets 16 and 64 of the buffer. -/
theorem marshal_pointers_wrap (order : ByteOrder) (iw : infoWrapper) (base : Nat) :
    (iw.marshal order base).iw.Info.CmdLine = (108 + base) % 2 ^ 32 ∧
    (iw.marshal order base).iw.Info.BootLoaderName
      = (108 + base + iw.CmdLine.length + 1) % 2 ^ 32 ∧
    readUint32 order (iw.marshal order base).bytes 16 = (108 + base) % 2 ^ 32 ∧
    readUint32 order (iw.marshal order base).bytes 64
      = (108 + base + iw.CmdLine.length + 1) % 2 ^ 32 := by
  refine ⟨?_, ?_, marshal_CmdLine_field order iw base,
    marshal_BootLoaderName_field order iw base⟩
  · rw [marshal_iw]
  · rw [marshal_iw]

/-- Claim C19. For every wrapper whose header fields are within the ranges of their
types, every base and byte order, the header decoded from the buffer is the header of
the wrapper with only `CmdLine` and `BootLoaderName` replaced by the two pointers: every
other field (Flags, MemLower, MemUpper, BootDevice, ModsCount, ModsAddr, Syms, the Mmap,
Drives, ConfigTable, APMTable, VBE, framebuffer and ColorInfo fields) decodes at its
offset to the value it has in the wrapper. The values `CmdLine` and `BootLoaderName` of
the header have on entry do not influence the bytes returned. -/
theorem marshal_other_fields_verbatim (order : ByteOrder) (iw : infoWrapper) (base : Nat)
    (h : iw.Info.inRange) :
    Info.decode order (iw.marshal order base).bytes =
      { iw.Info with
        CmdLine := (108 + base) % 2 ^ 32,
        BootLoaderName := (108 + base + iw.CmdLine.length + 1) % 2 ^ 32 } ∧
    ∀ c n : Nat,
      (infoWrapper.marshal order
        { iw with Info := { iw.Info with CmdLine := c, BootLoaderName := n } } base).bytes
      = (iw.marshal order base).bytes := by
  refine ⟨marshal_decode order iw base h, ?_⟩
  intro c n
  rw [marshal_bytes order _ base, marshal_bytes order iw base]
  simp only [marshal_iw]

theorem marshal_other_fields_verbatim_witness :
    busyWrapper.Info.inRange ∧
    (Info.decode .BigEndian (busyWrapper.marshal .BigEndian 0x100000).bytes).MemUpper
      = 0x7fc00 :=
  ⟨by decide,
    congrArg Info.MemUpper
      (marshal_other_fields_verbatim .BigEndian busyWrapper 0x100000 (by decide)).1⟩

/-- Claim C20. For every wrapper, base and byte order, the receiver after `marshal` is
the receiver before the call with `Info.CmdLine` and `Info.BootLoaderName` set to the
pointers read back from offsets 16 and 64 of the buffer; the two strings and every other
header field are unchanged. -/
theorem marshal_frame (order : ByteOrder) (iw : infoWrapper) (base : Nat) :
    (iw.marshal order base).iw =
      { iw with Info := { iw.Info with
          CmdLine := readUint32 order (iw.marshal order base).bytes 16,
          BootLoaderName := readUint32 order (iw.marshal order base).bytes 64 } } := by
  rw [marshal_CmdLine_field, marshal_BootLoaderName_field, marshal_iw]

end Multiboot
